import Mathlib

/-!
Shallow embedding of the regfs-example provider: a Windows Projected File
System provider that projects the registry as a virtual filesystem.
Source files embedded: src/regop.rs (path translator), src/dirinfo.rs
(enumeration cache), src/regfs.rs (provider dispatcher).

External host primitives (PrjFileNameMatch, PrjFileNameCompare,
PrjFillDirEntryBuffer, PrjWritePlaceholderInfo, PrjAllocateAlignedBuffer,
PrjWriteFileData) and the external registry content are parameters of the
model; the code under src/ is embedded faithfully on top of them.
-/

namespace RegFsModel

/-! ## HRESULT constants (winapi::shared::winerror) -/

def S_OK : Int := 0

def E_INVALIDARG : Int := -2147024809

def E_OUTOFMEMORY : Int := -2147024882

def ERROR_FILE_NOT_FOUND : Nat := 2

def ERROR_ACCESS_DENIED : Nat := 5

/-- HRESULT_FROM_WIN32: maps a Win32 error code to a failure HRESULT
(facility WIN32, severity bit set), as a signed 32-bit value. -/
def HRESULT_FROM_WIN32 (x : Nat) : Int :=
  if x = 0 then 0 else -2147024896 + ((x : Int) % 65536)

/-! ## PRJ_NOTIFICATION constants (projectedfslib.h) -/

def PRJ_NOTIFICATION_FILE_OPENED : Nat := 2

def PRJ_NOTIFY_NEW_FILE_CREATED : Nat := 4

def PRJ_NOTIFICATION_FILE_OVERWRITTEN : Nat := 8

def PRJ_NOTIFICATION_PRE_DELETE : Nat := 16

def PRJ_NOTIFICATION_PRE_RENAME : Nat := 32

def PRJ_NOTIFY_FILE_RENAMED : Nat := 128

def PRJ_NOTIFICATION_FILE_HANDLE_CLOSED_FILE_MODIFIED : Nat := 1024

def PRJ_NOTIFY_FILE_HANDLE_CLOSED_FILE_DELETED : Nat := 2048

def PRJ_NOTIFICATION_FILE_PRE_CONVERT_TO_FULL : Nat := 4096

/-! ## Virtual paths

A Windows `Path` as seen through `components()`: an optional leading
`RootDir` component plus a sequence of `Normal` segments.  ProjFS hands the
provider relative paths (`rooted = false`); `rooted = true` models a path
with a leading backslash. -/

structure VPath where
  rooted : Bool
  segs : List String
deriving DecidableEq

/-- Number of `components()` of the path. -/
def VPath.componentCount (p : VPath) : Nat :=
  (if p.rooted then 1 else 0) + p.segs.length

/-- utils::is_virtualization_root in regop.rs: the first component, if any,
must be `RootDir`; a path with no components is also the root. -/
def is_virtualization_root (p : VPath) : Bool :=
  p.rooted || p.segs.isEmpty

/-! ## The backing registry (external winreg content, modelled as a tree) -/

/-- A registry key: named subkeys and named values (raw byte lists). -/
inductive RegKey where
  | mk (subkeys : List (String × RegKey)) (values : List (String × List Nat))

def RegKey.subkeys : RegKey → List (String × RegKey)
  | .mk s _ => s

def RegKey.values : RegKey → List (String × List Nat)
  | .mk _ v => v

/-- First-match association-list lookup (models HashMap get / registry
name lookup with exact names). -/
def assocFind {α : Type} : List (String × α) → String → Option α
  | [], _ => none
  | (k, v) :: rest, n => if k = n then some v else assocFind rest n

/-- winreg RegKey::open_subkey on a component list; the empty list opens
the key itself. -/
def RegKey.openSubkey : RegKey → List String → Option RegKey
  | k, [] => some k
  | .mk subs _, n :: rest =>
    match assocFind subs n with
    | some k => RegKey.openSubkey k rest
    | none => none

/-- winreg RegKey::get_raw_value: the raw bytes of a named value. -/
def RegKey.getRawValue (k : RegKey) (n : String) : Option (List Nat) :=
  assocFind k.values n

/-! ## RegOps (src/regop.rs), the path translator -/

structure RegEntry where
  name : String
  size : Nat
deriving DecidableEq

structure RegEntires where
  subkeys : List RegEntry
  values : List RegEntry
deriving DecidableEq

structure RegOps where
  keymap : List (String × RegKey)

/-- RegOps::new: the fixed root-container set, the five predefined hives,
in insertion order.  The hives' contents are external registry state and
are parameters. -/
def RegOps.new (hkcr hkcu hklm hku hkcc : RegKey) : RegOps :=
  ⟨[("HKEY_CLASSES_ROOT", hkcr),
    ("HKEY_CURRENT_USER", hkcu),
    ("HKEY_LOCAL_MACHINE", hklm),
    ("HKEY_USERS", hku),
    ("HKEY_CURRENT_CONFIG", hkcc)]⟩

/-- RegOps::open_key_by_path.  A single-component path is looked up
directly in the keymap (a lone `RootDir` component is not a keymap name).
Otherwise the first component (skipping a leading `RootDir`) selects the
root key and the remainder is opened recursively. -/
def RegOps.open_key_by_path (ops : RegOps) (p : VPath) : Option RegKey :=
  if p.componentCount = 1 then
    if p.rooted then none
    else
      match p.segs with
      | [n] => assocFind ops.keymap n
      | _ => none
  else
    match p.segs with
    | [] => none
    | r :: rest =>
      match assocFind ops.keymap r with
      | some root => root.openSubkey rest
      | none => none

/-- RegOps::enumerate_key: the virtualization root lists the keymap names
(size 0, no values); any other path opens the key and lists its subkeys
(size 0) and values (size = byte length). -/
def RegOps.enumerate_key (ops : RegOps) (p : VPath) : Option RegEntires :=
  if is_virtualization_root p then
    some ⟨ops.keymap.map (fun kv => ⟨kv.1, 0⟩), []⟩
  else
    match ops.open_key_by_path p with
    | some k =>
      some ⟨k.subkeys.map (fun kv => ⟨kv.1, 0⟩),
            k.values.map (fun kv => ⟨kv.1, kv.2.length⟩)⟩
    | none => none

/-- RegOps::read_value: a path of at most one component holds no value;
otherwise the last component is the value name, the rest the key path. -/
def RegOps.read_value (ops : RegOps) (p : VPath) : Option (List Nat) :=
  if p.componentCount ≤ 1 then none
  else
    match p.segs.getLast? with
    | none => none
    | some v =>
      match ops.open_key_by_path ⟨p.rooted, p.segs.dropLast⟩ with
      | some k => k.getRawValue v
      | none => none

/-- RegOps::does_key_exist. -/
def RegOps.does_key_exist (ops : RegOps) (p : VPath) : Bool :=
  (ops.open_key_by_path p).isSome

/-- RegOps::does_value_exist: the byte length of the value, if readable. -/
def RegOps.does_value_exist (ops : RegOps) (p : VPath) : Option Nat :=
  (ops.read_value p).map List.length

/-! ## DirInfo (src/dirinfo.rs), the enumeration cache -/

structure DirEntry where
  filename : String
  is_directory : Bool
  size : Int
deriving DecidableEq

structure DirInfo where
  path : VPath
  index : Nat
  filled : Bool
  entries : List DirEntry
deriving DecidableEq

/-- DirInfo::new: default fields apart from the stored path. -/
def DirInfo.new (p : VPath) : DirInfo :=
  ⟨p, 0, false, []⟩

/-- DirInfo::reset. -/
def DirInfo.reset (d : DirInfo) : DirInfo :=
  { d with index := 0, filled := false, entries := [] }

/-- DirInfo::current_is_valid. -/
def DirInfo.current_is_valid (d : DirInfo) : Bool :=
  d.index < d.entries.length

/-- DirInfo::move_next. -/
def DirInfo.move_next (d : DirInfo) : DirInfo × Bool :=
  let d := { d with index := d.index + 1 }
  (d, d.index < d.entries.length)

/-- DirInfo::fill_item_entry: pure append. -/
def DirInfo.fill_item_entry (d : DirInfo) (filename : String) (size : Int)
    (is_directory : Bool) : DirInfo :=
  { d with entries := d.entries ++ [⟨filename, is_directory, size⟩] }

/-- DirInfo::fill_dir_entry. -/
def DirInfo.fill_dir_entry (d : DirInfo) (name : String) : DirInfo :=
  d.fill_item_entry name 0 true

/-- DirInfo::fill_file_entry. -/
def DirInfo.fill_file_entry (d : DirInfo) (name : String) (size : Int) : DirInfo :=
  d.fill_item_entry name size false

/-- DirInfo::sort_entries_and_mark_filled: set `filled`, then stable-sort
the entries by the host's filename collation `cf` (PrjFileNameCompare);
Rust's `sort_by` keeps `a` before `b` whenever the comparator is
non-positive, which is stable merge sort with `le a b := cf a b ≤ 0`. -/
def DirInfo.sort_entries_and_mark_filled (d : DirInfo)
    (cf : String → String → Int) : DirInfo :=
  { d with filled := true,
           entries := d.entries.mergeSort
             (fun a b => cf a.filename b.filename ≤ 0) }

/-! ## The host's directory-entry buffer (PrjFillDirEntryBuffer)

The host buffer is modelled by its capacity in entries and the entries
accepted so far; `PrjFillDirEntryBuffer` succeeds while there is room and
signals fullness otherwise. -/

structure Buffer where
  capacity : Nat
  written : List DirEntry
deriving DecidableEq

/-- PrjFillDirEntryBuffer: `some` = S_OK (entry accepted), `none` = the
buffer reported itself full. -/
def Buffer.tryFill (buf : Buffer) (e : DirEntry) : Option Buffer :=
  if buf.written.length < buf.capacity then
    some ⟨buf.capacity, buf.written ++ [e]⟩
  else
    none

/-- The drain loop of get_dir_enum: while the current entry is valid, hand
it to the buffer; stop (without error) the first time the buffer is full,
else advance the cursor. -/
def drainLoop (d : DirInfo) (buf : Buffer) : DirInfo × Buffer :=
  if h : d.index < d.entries.length then
    match buf.tryFill (d.entries.get ⟨d.index, h⟩) with
    | none => (d, buf)
    | some buf' => drainLoop { d with index := d.index + 1 } buf'
  else
    (d, buf)
termination_by d.entries.length - d.index
decreasing_by simp_wf; omega

/-! ## The session table (State.enum_sessions, a HashMap under a Mutex) -/

def SessionTable : Type := List (List Nat × DirInfo)

/-- HashMap::get / get_mut on the session table. -/
def lookupSession : SessionTable → List Nat → Option DirInfo
  | [], _ => none
  | (g, d) :: rest, guid => if g = guid then some d else lookupSession rest guid

/-- Writing back the in-place mutation of the session `get_mut` handed out. -/
def updateSession : SessionTable → List Nat → DirInfo → SessionTable
  | [], _, _ => []
  | (g, d) :: rest, guid, d' =>
    if g = guid then (g, d') :: rest else (g, d) :: updateSession rest guid d'

/-- HashMap::remove. -/
def removeSession : SessionTable → List Nat → SessionTable
  | [], _ => []
  | (g, d) :: rest, guid =>
    if g = guid then rest else (g, d) :: removeSession rest guid

/-- HashMap::insert: replaces any prior session held under the id. -/
def insertSession (t : SessionTable) (guid : List Nat) (d : DirInfo) :
    SessionTable :=
  (guid, d) :: removeSession t guid

/-! ## RegFs (src/regfs.rs), the provider dispatcher

`Host` bundles the two pure host primitives the dispatcher consults:
the wildcard matcher (PrjFileNameMatch) and the filename collation
(PrjFileNameCompare). -/

structure Host where
  matchFn : String → String → Bool
  compareFn : String → String → Int

structure RegFs where
  regops : RegOps
  readonly : Bool

/-- RegFs::new: readonly is hard-wired to true; the registry content
behind the five hives is external state, passed in. -/
def RegFs.new (hkcr hkcu hklm hku hkcc : RegKey) : RegFs :=
  ⟨RegOps.new hkcr hkcu hklm hku hkcc, true⟩

/-- The filtered-append pass of populate_dir_info_for_path over one entry
list: push each entry whose name the host matcher accepts. -/
def fillMatching (mf : String → String → Bool) (sexpr : String)
    (push : DirInfo → RegEntry → DirInfo) : DirInfo → List RegEntry → DirInfo
  | d, [] => d
  | d, e :: rest =>
    fillMatching mf sexpr push (if mf e.name sexpr then push d e else d) rest

/-- RegFs::populate_dir_info_for_path: enumerate the key (false if that
fails), then append matching subkeys as directory entries and matching
values as file entries. -/
def populate_dir_info_for_path (fs : RegFs) (host : Host) (path : VPath)
    (d : DirInfo) (sexpr : String) : Bool × DirInfo :=
  match fs.regops.enumerate_key path with
  | none => (false, d)
  | some es =>
    let d1 := fillMatching host.matchFn sexpr
      (fun acc e => acc.fill_dir_entry e.name) d es.subkeys
    let d2 := fillMatching host.matchFn sexpr
      (fun acc e => acc.fill_file_entry e.name (e.size : Int)) d1 es.values
    (true, d2)

/-- RegFs::start_dir_enum: install a fresh DirInfo for the id; always 0. -/
def start_dir_enum (t : SessionTable) (guid : List Nat) (path : VPath) :
    SessionTable × Int :=
  (insertSession t guid (DirInfo.new path), 0)

/-- RegFs::end_dir_enum: remove the session (no-op if absent); always 0. -/
def end_dir_enum (t : SessionTable) (guid : List Nat) : SessionTable × Int :=
  (removeSession t guid, 0)

/-- RegFs::get_dir_enum.  Unknown id: Ok(E_INVALIDARG), nothing touched.
Otherwise: reset on the restart flag; if not yet filled, populate from the
translator (an enumeration failure propagates as the anyhow error
"failed to get key"), then sort-and-mark-filled; finally drain entries
into the host buffer and return Ok(S_OK). -/
def get_dir_enum (fs : RegFs) (host : Host) (t : SessionTable)
    (guid : List Nat) (path : VPath) (sexpr : String) (restart : Bool)
    (buf : Buffer) : SessionTable × Buffer × Except String Int :=
  match lookupSession t guid with
  | none => (t, buf, .ok E_INVALIDARG)
  | some d0 =>
    let d1 := if restart then d0.reset else d0
    if d1.filled then
      let (d4, buf') := drainLoop d1 buf
      (updateSession t guid d4, buf', .ok S_OK)
    else
      match populate_dir_info_for_path fs host path d1 sexpr with
      | (false, d2) =>
        (updateSession t guid d2, buf, .error "failed to get key")
      | (true, d2) =>
        let d3 := d2.sort_entries_and_mark_filled host.compareFn
        let (d4, buf') := drainLoop d3 buf
        (updateSession t guid d4, buf', .ok S_OK)

/-- The metadata handed to PrjWritePlaceholderInfo
(PRJ_PLACEHOLDER_INFO.FileBasicInfo). -/
structure Placeholder where
  isDirectory : Bool
  fileSize : Int
deriving DecidableEq

/-- RegFs::get_placeholder_info.  `writeHr` is the status the host's
PrjWritePlaceholderInfo returns for the handoff; the second component
records the placeholder handed off, if any.  The key check runs first;
only when it fails is the value check consulted. -/
def get_placeholder_info (fs : RegFs) (writeHr : Int) (path : VPath) :
    Int × Option Placeholder :=
  if fs.regops.does_key_exist path then
    (writeHr, some ⟨true, 0⟩)
  else
    match fs.regops.does_value_exist path with
    | some size => (writeHr, some ⟨false, (size : Int)⟩)
    | none => (HRESULT_FROM_WIN32 ERROR_FILE_NOT_FOUND, none)

/-- Outcome of get_file_data: either a normal return carrying the HRESULT,
whether PrjFreeAlignedBuffer ran, and the deliver-bytes handoff
(buffer bytes, offset, length) if one happened; or a Rust panic. -/
inductive FileDataOutcome where
  | ret (hr : Int) (freed : Bool) (delivered : Option (List Nat × Nat × Nat))
  | panicked
deriving DecidableEq

/-- RegFs::get_file_data.  `allocOk` models whether
PrjAllocateAlignedBuffer returns a buffer (of `length` bytes); `writeHr`
is the status of the host's PrjWriteFileData.  `copy_from_slice` into the
`length`-byte buffer requires the value's byte count to equal `length`
exactly and panics otherwise; the panic skips the free. -/
def get_file_data (fs : RegFs) (allocOk : Bool) (writeHr : Int)
    (path : VPath) (offset : Nat) (length : Nat) : FileDataOutcome :=
  if !allocOk then
    .ret E_OUTOFMEMORY false none
  else
    match fs.regops.read_value path with
    | some bytes =>
      if bytes.length = length then
        .ret writeHr true (some (bytes, offset, length))
      else
        .panicked
    | none =>
      .ret (HRESULT_FROM_WIN32 ERROR_FILE_NOT_FOUND) true none

/-- RegFs::notify: dispatch on the notification kind.  The function reads
only `readonly`; it touches no session state and no buffer. -/
def notify (fs : RegFs) (ntype : Nat) : Int :=
  if ntype = PRJ_NOTIFICATION_FILE_OPENED then S_OK
  else if ntype = PRJ_NOTIFICATION_FILE_HANDLE_CLOSED_FILE_MODIFIED then S_OK
  else if ntype = PRJ_NOTIFICATION_FILE_OVERWRITTEN then S_OK
  else if ntype = PRJ_NOTIFY_NEW_FILE_CREATED then S_OK
  else if ntype = PRJ_NOTIFY_FILE_RENAMED then S_OK
  else if ntype = PRJ_NOTIFY_FILE_HANDLE_CLOSED_FILE_DELETED then S_OK
  else if ntype = PRJ_NOTIFICATION_PRE_RENAME then
    if fs.readonly then HRESULT_FROM_WIN32 ERROR_ACCESS_DENIED else S_OK
  else if ntype = PRJ_NOTIFICATION_PRE_DELETE then
    if fs.readonly then HRESULT_FROM_WIN32 ERROR_ACCESS_DENIED else S_OK
  else if ntype = PRJ_NOTIFICATION_FILE_PRE_CONVERT_TO_FULL then S_OK
  else S_OK

/-- RegFs::query_file_name: always S_OK. -/
def query_file_name : Int := S_OK

/-! ## Session-table lemmas -/

/-- A table has no duplicate ids (the HashMap invariant). -/
abbrev keysNodup (t : SessionTable) : Prop :=
  (t.map Prod.fst).Nodup

theorem lookupSession_updateSession_self {t : SessionTable} {g : List Nat}
    {d d' : DirInfo} (h : lookupSession t g = some d) :
    lookupSession (updateSession t g d') g = some d' := by
  induction t with
  | nil => simp [lookupSession] at h
  | cons p rest ih =>
    obtain ⟨g0, d0⟩ := p
    by_cases hg : g0 = g
    · simp [lookupSession, updateSession, hg]
    · simp only [lookupSession, updateSession, if_neg hg] at h ⊢
      exact ih h

theorem updateSession_updateSession {t : SessionTable} {g : List Nat}
    {d1 d2 : DirInfo} :
    updateSession (updateSession t g d1) g d2 = updateSession t g d2 := by
  induction t with
  | nil => rfl
  | cons p rest ih =>
    obtain ⟨g0, d0⟩ := p
    by_cases hg : g0 = g
    · simp [updateSession, hg]
    · simp [updateSession, hg, ih]

theorem updateSession_self {t : SessionTable} {g : List Nat} {d : DirInfo}
    (h : lookupSession t g = some d) : updateSession t g d = t := by
  induction t with
  | nil => rfl
  | cons p rest ih =>
    obtain ⟨g0, d0⟩ := p
    by_cases hg : g0 = g
    · simp only [lookupSession, if_pos hg] at h
      injection h with h
      simp only [updateSession, if_pos hg]
      rw [h]
    · simp only [lookupSession, if_neg hg] at h
      simp [updateSession, hg, ih h]

theorem removeSession_absent {t : SessionTable} {g : List Nat}
    (h : lookupSession t g = none) : removeSession t g = t := by
  induction t with
  | nil => rfl
  | cons p rest ih =>
    obtain ⟨g0, d0⟩ := p
    by_cases hg : g0 = g
    · simp [lookupSession, hg] at h
    · simp only [lookupSession, if_neg hg] at h
      simp [removeSession, hg, ih h]

theorem lookupSession_absent {t : SessionTable} {g : List Nat}
    (h : g ∉ t.map Prod.fst) : lookupSession t g = none := by
  induction t with
  | nil => rfl
  | cons p rest ih =>
    obtain ⟨g0, d0⟩ := p
    simp only [List.map_cons, List.mem_cons, not_or] at h
    have hne : g0 ≠ g := fun hc => h.1 hc.symm
    simp only [lookupSession, if_neg hne]
    exact ih h.2

theorem lookupSession_removeSession_self {t : SessionTable} {g : List Nat}
    (h : keysNodup t) : lookupSession (removeSession t g) g = none := by
  induction t with
  | nil => rfl
  | cons p rest ih =>
    obtain ⟨g0, d0⟩ := p
    simp only [keysNodup, List.map_cons, List.nodup_cons] at h
    by_cases hg : g0 = g
    · subst hg
      simp only [removeSession, if_pos rfl]
      exact lookupSession_absent h.1
    · simp only [removeSession, if_neg hg, lookupSession, if_neg hg]
      exact ih h.2

/-! ## Fill and populate lemmas -/

theorem fillMatching_eq (mf : String → String → Bool) (sexpr : String)
    (nm : RegEntry → String) (sz : RegEntry → Int) (b : Bool)
    (d : DirInfo) (es : List RegEntry) :
    fillMatching mf sexpr (fun acc e => acc.fill_item_entry (nm e) (sz e) b) d es
      = { d with entries := (d.entries ++
            (es.filter (fun e => mf e.name sexpr)).map
              (fun e => ⟨nm e, b, sz e⟩)) } := by
  induction es generalizing d with
  | nil => simp [fillMatching]
  | cons e rest ih =>
    by_cases hm : mf e.name sexpr
    · rw [fillMatching, if_pos hm, ih]
      simp [DirInfo.fill_item_entry, hm, List.filter_cons, List.append_assoc]
    · rw [fillMatching, if_neg hm, ih]
      simp [hm, List.filter_cons]

theorem populate_eq (fs : RegFs) (host : Host) (path : VPath) (d : DirInfo)
    (sexpr : String) (es : RegEntires)
    (he : fs.regops.enumerate_key path = some es) :
    populate_dir_info_for_path fs host path d sexpr =
      (true, { d with entries := d.entries ++
        ((es.subkeys.filter (fun e => host.matchFn e.name sexpr)).map
          (fun e => ⟨e.name, true, 0⟩) ++
         (es.values.filter (fun e => host.matchFn e.name sexpr)).map
          (fun e => ⟨e.name, false, (e.size : Int)⟩)) }) := by
  have h1 : (fun (acc : DirInfo) (e : RegEntry) => acc.fill_dir_entry e.name)
      = fun acc e => acc.fill_item_entry e.name 0 true := rfl
  have h2 : (fun (acc : DirInfo) (e : RegEntry) =>
        acc.fill_file_entry e.name (e.size : Int))
      = fun acc e => acc.fill_item_entry e.name (e.size : Int) false := rfl
  simp only [populate_dir_info_for_path, he, h1, h2]
  rw [fillMatching_eq, fillMatching_eq]
  simp

theorem populate_fail (fs : RegFs) (host : Host) (path : VPath) (d : DirInfo)
    (sexpr : String) (he : fs.regops.enumerate_key path = none) :
    populate_dir_info_for_path fs host path d sexpr = (false, d) := by
  simp [populate_dir_info_for_path, he]

/-! ## Drain-loop lemmas -/

theorem drainLoop_done {d : DirInfo} {buf : Buffer}
    (h : d.entries.length ≤ d.index) : drainLoop d buf = (d, buf) := by
  unfold drainLoop
  simp [Nat.not_lt.mpr h]

theorem drainLoop_cap1 (d : DirInfo) (h : d.index < d.entries.length) :
    drainLoop d ⟨1, []⟩ =
      ({ d with index := d.index + 1 },
       ⟨1, [d.entries.get ⟨d.index, h⟩]⟩) := by
  rw [drainLoop.eq_def]
  simp only [dif_pos h]
  have ht : Buffer.tryFill ⟨1, []⟩ (d.entries.get ⟨d.index, h⟩)
      = some ⟨1, [d.entries.get ⟨d.index, h⟩]⟩ := by
    simp [Buffer.tryFill]
  rw [ht]
  show drainLoop { d with index := d.index + 1 } ⟨1, [d.entries.get ⟨d.index, h⟩]⟩
      = ({ d with index := d.index + 1 }, ⟨1, [d.entries.get ⟨d.index, h⟩]⟩)
  rw [drainLoop.eq_def]
  by_cases h2 : d.index + 1 < d.entries.length
  · simp [dif_pos h2, Buffer.tryFill]
  · simp [dif_neg h2]

/-! ## One get-enum call on a filled session -/

theorem getEnum_filled_step (fs : RegFs) (host : Host) (t : SessionTable)
    (guid : List Nat) (path : VPath) (sexpr : String) (d : DirInfo)
    (hl : lookupSession t guid = some d) (hf : d.filled = true)
    (hi : d.index < d.entries.length) :
    get_dir_enum fs host t guid path sexpr false ⟨1, []⟩ =
      (updateSession t guid { d with index := d.index + 1 },
       ⟨1, [d.entries.get ⟨d.index, hi⟩]⟩, .ok S_OK) := by
  simp [get_dir_enum, hl, hf, drainLoop_cap1 d hi]

theorem getEnum_filled_done (fs : RegFs) (host : Host) (t : SessionTable)
    (guid : List Nat) (path : VPath) (sexpr : String) (d : DirInfo)
    (buf : Buffer) (hl : lookupSession t guid = some d)
    (hf : d.filled = true) (hi : d.entries.length ≤ d.index) :
    get_dir_enum fs host t guid path sexpr false buf =
      (updateSession t guid d, buf, .ok S_OK) := by
  simp [get_dir_enum, hl, hf, drainLoop_done hi]

/-! ## Iterated get-enum calls (the draining scenario)

`runGetEnums fs host guid path sexpr cap k t` performs `k` successive
get-enum calls with restart=false, each against a fresh host buffer of
`cap` entries, and collects each call's accepted entries and status. -/

def runGetEnums (fs : RegFs) (host : Host) (guid : List Nat) (path : VPath)
    (sexpr : String) (cap : Nat) :
    Nat → SessionTable → SessionTable × List (List DirEntry × Except String Int)
  | 0, t => (t, [])
  | k + 1, t =>
    let r1 := get_dir_enum fs host t guid path sexpr false ⟨cap, []⟩
    let r2 := runGetEnums fs host guid path sexpr cap k r1.1
    (r2.1, (r1.2.1.written, r1.2.2) :: r2.2)

theorem runGetEnums_filled (fs : RegFs) (host : Host) (guid : List Nat)
    (path : VPath) (sexpr : String) (k : Nat) :
    ∀ (t : SessionTable) (d : DirInfo), lookupSession t guid = some d →
      d.filled = true → d.index + k ≤ d.entries.length →
      runGetEnums fs host guid path sexpr 1 k t =
        (updateSession t guid { d with index := d.index + k },
         ((d.entries.drop d.index).take k).map
           (fun e => ([e], Except.ok S_OK))) := by
  induction k with
  | zero =>
    intro t d hl _ _
    simp only [runGetEnums, Nat.add_zero, List.take_zero, List.map_nil]
    rw [show { d with index := d.index } = d from rfl, updateSession_self hl]
  | succ k ih =>
    intro t d hl hf hk
    have hi : d.index < d.entries.length := by omega
    have hstep := getEnum_filled_step fs host t guid path sexpr d hl hf hi
    simp only [runGetEnums, hstep]
    have hl' : lookupSession (updateSession t guid { d with index := d.index + 1 })
        guid = some { d with index := d.index + 1 } :=
      lookupSession_updateSession_self hl
    have hrec := ih (updateSession t guid { d with index := d.index + 1 })
      { d with index := d.index + 1 } hl' hf (by simp; omega)
    simp only at hrec
    rw [hrec, updateSession_updateSession]
    have hidx : d.index + 1 + k = d.index + (k + 1) := by omega
    rw [hidx]
    have hdrop : d.entries.drop d.index
        = d.entries.get ⟨d.index, hi⟩ :: d.entries.drop (d.index + 1) :=
      List.drop_eq_getElem_cons hi
    rw [hdrop, List.take_succ_cons, List.map_cons]

theorem runGetEnums_split (fs : RegFs) (host : Host) (guid : List Nat)
    (path : VPath) (sexpr : String) (cap : Nat) (k1 k2 : Nat) :
    ∀ t : SessionTable,
      runGetEnums fs host guid path sexpr cap (k1 + k2) t =
        ((runGetEnums fs host guid path sexpr cap k2
            (runGetEnums fs host guid path sexpr cap k1 t).1).1,
         (runGetEnums fs host guid path sexpr cap k1 t).2 ++
           (runGetEnums fs host guid path sexpr cap k2
             (runGetEnums fs host guid path sexpr cap k1 t).1).2) := by
  induction k1 with
  | zero =>
    intro t
    simp [runGetEnums]
  | succ k ih =>
    intro t
    have hadd : k + 1 + k2 = (k + k2) + 1 := by omega
    rw [hadd]
    simp only [runGetEnums]
    rw [ih]
    simp

theorem flatten_singletons {α : Type} (l : List α) :
    (l.map (fun e => [e])).flatten = l := by
  induction l with
  | nil => rfl
  | cons e rest ih => simp [ih]

theorem writes_flatten (l : List DirEntry) :
    (((l.map (fun e => ([e], (Except.ok S_OK : Except String Int)))) ++
      [([], Except.ok S_OK)]).map Prod.fst).flatten = l := by
  induction l with
  | nil => rfl
  | cons e rest ih => simp_all

/-! ## Concrete fixtures for the witnesses and the counterexample -/

def emptyKey : RegKey := .mk [] []

def softwareKey : RegKey := .mk [] [("Ver", [10, 0, 0, 0])]

def hklmKey : RegKey := .mk [("SOFTWARE", softwareKey)] []

def wFs : RegFs := RegFs.new emptyKey emptyKey hklmKey emptyKey emptyKey

def wHost : Host := ⟨fun _ _ => true, fun _ _ => 0⟩

def wPathRoot : VPath := ⟨false, []⟩

def wPathKey : VPath := ⟨false, ["HKEY_LOCAL_MACHINE", "SOFTWARE"]⟩

def wPathVal : VPath := ⟨false, ["HKEY_LOCAL_MACHINE", "SOFTWARE", "Ver"]⟩

def wPathNone : VPath := ⟨false, ["NOPE"]⟩

/-- A filled two-entry session cache used by the draining witness. -/
def cDir : DirInfo :=
  ⟨wPathRoot, 0, true, [⟨"a", true, 0⟩, ⟨"b", false, 3⟩]⟩

/-! ## Claim theorems -/

/-- C10: reset() always yields the Empty state — filled=false, cursor 0,
empty entry list — from any prior cache state; and a get-enum call carrying
the restart flag behaves exactly as a restart-free call on the session
replaced by its reset. -/
theorem claim_C10 (d : DirInfo) (fs : RegFs) (host : Host) (t : SessionTable)
    (guid : List Nat) (path : VPath) (sexpr : String) (buf : Buffer)
    (hl : lookupSession t guid = some d) :
    d.reset.filled = false ∧ d.reset.index = 0 ∧ d.reset.entries = [] ∧
    get_dir_enum fs host t guid path sexpr true buf =
      get_dir_enum fs host (updateSession t guid d.reset) guid path sexpr
        false buf := by
  refine ⟨rfl, rfl, rfl, ?_⟩
  have hl2 : lookupSession (updateSession t guid d.reset) guid = some d.reset :=
    lookupSession_updateSession_self hl
  simp [get_dir_enum, hl, hl2, updateSession_updateSession]

/-- C10 witness: the equations of claim_C10 at a concrete filled session. -/
theorem claim_C10_witness :
    cDir.reset.filled = false ∧ cDir.reset.index = 0 ∧
    cDir.reset.entries = [] ∧
    get_dir_enum wFs wHost [([2], cDir)] [2] wPathRoot "" true ⟨1, []⟩ =
      get_dir_enum wFs wHost (updateSession [([2], cDir)] [2] cDir.reset) [2]
        wPathRoot "" false ⟨1, []⟩ :=
  claim_C10 cDir wFs wHost [([2], cDir)] [2] wPathRoot "" ⟨1, []⟩ (by decide)

/-- C3: get-enum with an id absent from the session table returns
E_INVALIDARG (the InvalidSession status) leaving the table and the host
buffer untouched; end-enum on a missing id is a benign success no-op, and
a second end for the same id (on a table with the HashMap unique-key
invariant) is again a success no-op. -/
theorem claim_C3 (fs : RegFs) (host : Host) (t : SessionTable)
    (guid : List Nat) (path : VPath) (sexpr : String) (restart : Bool)
    (buf : Buffer) :
    (lookupSession t guid = none →
      get_dir_enum fs host t guid path sexpr restart buf =
        (t, buf, .ok E_INVALIDARG)) ∧
    (lookupSession t guid = none → end_dir_enum t guid = (t, 0)) ∧
    (keysNodup t →
      end_dir_enum (end_dir_enum t guid).1 guid =
        ((end_dir_enum t guid).1, 0)) := by
  refine ⟨?_, ?_, ?_⟩
  · intro h
    simp [get_dir_enum, h]
  · intro h
    simp [end_dir_enum, removeSession_absent h]
  · intro h
    simp only [end_dir_enum]
    rw [removeSession_absent (lookupSession_removeSession_self h)]

/-- C3 witness: the three conjuncts of claim_C3 at concrete inputs. -/
theorem claim_C3_witness :
    get_dir_enum wFs wHost [([2], cDir)] [9] wPathRoot "" false ⟨1, []⟩ =
      ([([2], cDir)], ⟨1, []⟩, .ok E_INVALIDARG) ∧
    end_dir_enum [([2], cDir)] [9] = ([([2], cDir)], 0) ∧
    end_dir_enum (end_dir_enum [([2], cDir)] [2]).1 [2] =
      ((end_dir_enum [([2], cDir)] [2]).1, 0) := by
  have h := claim_C3 wFs wHost [([2], cDir)] [9] wPathRoot "" false ⟨1, []⟩
  have h2 := claim_C3 wFs wHost [([2], cDir)] [2] wPathRoot "" false ⟨1, []⟩
  exact ⟨h.1 (by decide), h.2.1 (by decide), h2.2.2 (by decide)⟩

/-- C7: every provider the constructor builds has the read-only policy
active; under it the pre-rename and pre-delete notifications return
AccessDenied, while every other notification kind — opened, modified,
overwritten, created, renamed, deleted, pre-convert, or unrecognized —
returns S_OK whatever the policy.  notify reads only the policy flag: it
touches no session table and no buffer. -/
theorem claim_C7 (hkcr hkcu hklm hku hkcc : RegKey) (fs : RegFs)
    (ntype : Nat) :
    (RegFs.new hkcr hkcu hklm hku hkcc).readonly = true ∧
    (fs.readonly = true →
      notify fs PRJ_NOTIFICATION_PRE_RENAME =
        HRESULT_FROM_WIN32 ERROR_ACCESS_DENIED) ∧
    (fs.readonly = true →
      notify fs PRJ_NOTIFICATION_PRE_DELETE =
        HRESULT_FROM_WIN32 ERROR_ACCESS_DENIED) ∧
    (ntype ≠ PRJ_NOTIFICATION_PRE_RENAME →
      ntype ≠ PRJ_NOTIFICATION_PRE_DELETE → notify fs ntype = S_OK) := by
  refine ⟨rfl, ?_, ?_, ?_⟩
  · intro hro
    simp [notify, hro, PRJ_NOTIFICATION_PRE_RENAME, PRJ_NOTIFICATION_FILE_OPENED,
      PRJ_NOTIFICATION_FILE_HANDLE_CLOSED_FILE_MODIFIED,
      PRJ_NOTIFICATION_FILE_OVERWRITTEN, PRJ_NOTIFY_NEW_FILE_CREATED,
      PRJ_NOTIFY_FILE_RENAMED, PRJ_NOTIFY_FILE_HANDLE_CLOSED_FILE_DELETED]
  · intro hro
    simp [notify, hro, PRJ_NOTIFICATION_PRE_RENAME, PRJ_NOTIFICATION_PRE_DELETE,
      PRJ_NOTIFICATION_FILE_OPENED,
      PRJ_NOTIFICATION_FILE_HANDLE_CLOSED_FILE_MODIFIED,
      PRJ_NOTIFICATION_FILE_OVERWRITTEN, PRJ_NOTIFY_NEW_FILE_CREATED,
      PRJ_NOTIFY_FILE_RENAMED, PRJ_NOTIFY_FILE_HANDLE_CLOSED_FILE_DELETED]
  · intro h1 h2
    simp only [notify]
    split_ifs with a b c e f g hh i j
    all_goals first
      | rfl
      | exact absurd (by assumption) h1
      | exact absurd (by assumption) h2

/-- C7 witness: claim_C7 instantiated with the fixture provider (readonly)
and an unrecognized notification kind. -/
theorem claim_C7_witness :
    wFs.readonly = true ∧
    notify wFs PRJ_NOTIFICATION_PRE_RENAME =
      HRESULT_FROM_WIN32 ERROR_ACCESS_DENIED ∧
    notify wFs PRJ_NOTIFICATION_PRE_DELETE =
      HRESULT_FROM_WIN32 ERROR_ACCESS_DENIED ∧
    notify wFs 9999 = S_OK := by
  have h := claim_C7 emptyKey emptyKey hklmKey emptyKey emptyKey wFs 9999
  exact ⟨by decide, h.2.1 (by decide), h.2.2.1 (by decide),
    h.2.2.2 (by decide) (by decide)⟩

/-- C8: a fill of an Empty cache appends exactly the matching subkeys (as
directory entries, size 0) followed by the matching values (as file
entries), in enumeration order — containers before values, no sort, no
dedup — and every appended entry's name passes the host match
expression. -/
theorem claim_C8 (fs : RegFs) (host : Host) (path : VPath) (d : DirInfo)
    (sexpr : String) (es : RegEntires)
    (he : fs.regops.enumerate_key path = some es) :
    populate_dir_info_for_path fs host path d sexpr =
      (true, { d with entries := (d.entries ++
        ((es.subkeys.filter (fun e => host.matchFn e.name sexpr)).map
          (fun e => ⟨e.name, true, 0⟩) ++
         (es.values.filter (fun e => host.matchFn e.name sexpr)).map
          (fun e => ⟨e.name, false, (e.size : Int)⟩))) }) ∧
    ∀ e ∈ (es.subkeys.filter (fun e => host.matchFn e.name sexpr)).map
          (fun e => (⟨e.name, true, 0⟩ : DirEntry)) ++
         (es.values.filter (fun e => host.matchFn e.name sexpr)).map
          (fun e => (⟨e.name, false, (e.size : Int)⟩ : DirEntry)),
      host.matchFn e.filename sexpr = true := by
  constructor
  · exact populate_eq fs host path d sexpr es he
  · intro e hmem
    rcases List.mem_append.mp hmem with hA | hB
    · rcases List.mem_map.mp hA with ⟨x, hx, rfl⟩
      exact (List.mem_filter.mp hx).2
    · rcases List.mem_map.mp hB with ⟨x, hx, rfl⟩
      exact (List.mem_filter.mp hx).2

/-- C8 witness: claim_C8 on the fixture store at the HKLM\SOFTWARE key,
whose enumeration holds no subkeys and one value. -/
theorem claim_C8_witness :
    populate_dir_info_for_path wFs wHost wPathKey (DirInfo.new wPathKey) "" =
      (true, { DirInfo.new wPathKey with entries :=
        [⟨"Ver", false, (4 : Int)⟩] }) := by
  have h := claim_C8 wFs wHost wPathKey (DirInfo.new wPathKey) ""
    ⟨[], [⟨"Ver", 4⟩]⟩ (by decide)
  have h1 := h.1
  simpa using h1

/-- C9: listing the virtualization root returns exactly the fixed
root-container set RegOps::new installs at construction — the five
predefined hives, size 0 each, with no values — and a fill from the root
under an all-accepting match expression reports each of them as a
directory (isDirectory=true) of size 0. -/
theorem claim_C9 (hkcr hkcu hklm hku hkcc : RegKey) (host : Host)
    (p : VPath) (sexpr : String)
    (hroot : is_virtualization_root p = true)
    (hmatch : ∀ n, host.matchFn n sexpr = true) :
    (RegOps.new hkcr hkcu hklm hku hkcc).enumerate_key p =
      some ⟨[⟨"HKEY_CLASSES_ROOT", 0⟩, ⟨"HKEY_CURRENT_USER", 0⟩,
             ⟨"HKEY_LOCAL_MACHINE", 0⟩, ⟨"HKEY_USERS", 0⟩,
             ⟨"HKEY_CURRENT_CONFIG", 0⟩], []⟩ ∧
    populate_dir_info_for_path
        ⟨RegOps.new hkcr hkcu hklm hku hkcc, true⟩ host p (DirInfo.new p)
        sexpr =
      (true, { DirInfo.new p with entries :=
        [⟨"HKEY_CLASSES_ROOT", true, 0⟩, ⟨"HKEY_CURRENT_USER", true, 0⟩,
         ⟨"HKEY_LOCAL_MACHINE", true, 0⟩, ⟨"HKEY_USERS", true, 0⟩,
         ⟨"HKEY_CURRENT_CONFIG", true, 0⟩] }) := by
  have he : (RegOps.new hkcr hkcu hklm hku hkcc).enumerate_key p =
      some ⟨[⟨"HKEY_CLASSES_ROOT", 0⟩, ⟨"HKEY_CURRENT_USER", 0⟩,
             ⟨"HKEY_LOCAL_MACHINE", 0⟩, ⟨"HKEY_USERS", 0⟩,
             ⟨"HKEY_CURRENT_CONFIG", 0⟩], []⟩ := by
    simp [RegOps.enumerate_key, hroot, RegOps.new]
  refine ⟨he, ?_⟩
  have h := populate_eq ⟨RegOps.new hkcr hkcu hklm hku hkcc, true⟩ host p
    (DirInfo.new p) sexpr _ he
  rw [h]
  simp [hmatch, DirInfo.new]

/-- C9 witness: claim_C9 at the empty relative path with an all-accepting
matcher. -/
theorem claim_C9_witness :
    (RegOps.new emptyKey emptyKey hklmKey emptyKey emptyKey).enumerate_key
        wPathRoot =
      some ⟨[⟨"HKEY_CLASSES_ROOT", 0⟩, ⟨"HKEY_CURRENT_USER", 0⟩,
             ⟨"HKEY_LOCAL_MACHINE", 0⟩, ⟨"HKEY_USERS", 0⟩,
             ⟨"HKEY_CURRENT_CONFIG", 0⟩], []⟩ ∧
    populate_dir_info_for_path
        ⟨RegOps.new emptyKey emptyKey hklmKey emptyKey emptyKey, true⟩ wHost
        wPathRoot (DirInfo.new wPathRoot) "" =
      (true, { DirInfo.new wPathRoot with entries :=
        [⟨"HKEY_CLASSES_ROOT", true, 0⟩, ⟨"HKEY_CURRENT_USER", true, 0⟩,
         ⟨"HKEY_LOCAL_MACHINE", true, 0⟩, ⟨"HKEY_USERS", true, 0⟩,
         ⟨"HKEY_CURRENT_CONFIG", true, 0⟩] }) :=
  claim_C9 emptyKey emptyKey hklmKey emptyKey emptyKey wHost wPathRoot ""
    (by decide) (fun n => rfl)

/-- C5: get-placeholder-info hands a directory placeholder of size 0 to
the host's materialize primitive when the path is an existing container
(this check runs first), else a file placeholder sized by the value's byte
length when the path is an existing value, returning the host's status
verbatim in both cases; otherwise it returns NotFound and hands off
nothing. -/
theorem claim_C5 (fs : RegFs) (writeHr : Int) (path : VPath) :
    (fs.regops.does_key_exist path = true →
      get_placeholder_info fs writeHr path = (writeHr, some ⟨true, 0⟩)) ∧
    (fs.regops.does_key_exist path = false →
      ∀ n, fs.regops.does_value_exist path = some n →
        get_placeholder_info fs writeHr path =
          (writeHr, some ⟨false, (n : Int)⟩)) ∧
    (fs.regops.does_key_exist path = false →
      fs.regops.does_value_exist path = none →
      get_placeholder_info fs writeHr path =
        (HRESULT_FROM_WIN32 ERROR_FILE_NOT_FOUND, none)) := by
  refine ⟨?_, ?_, ?_⟩
  · intro hk
    simp [get_placeholder_info, hk]
  · intro hk n hv
    simp [get_placeholder_info, hk, hv]
  · intro hk hv
    simp [get_placeholder_info, hk, hv]

/-- C5 witness: claim_C5's three branches on the fixture store — a key
path, a value path, and a missing path. -/
theorem claim_C5_witness :
    get_placeholder_info wFs 7 wPathKey = (7, some ⟨true, 0⟩) ∧
    get_placeholder_info wFs 7 wPathVal = (7, some ⟨false, (4 : Int)⟩) ∧
    get_placeholder_info wFs 7 wPathNone =
      (HRESULT_FROM_WIN32 ERROR_FILE_NOT_FOUND, none) :=
  ⟨(claim_C5 wFs 7 wPathKey).1 (by decide),
   (claim_C5 wFs 7 wPathVal).2.1 (by decide) 4 (by decide),
   (claim_C5 wFs 7 wPathNone).2.2 (by decide) (by decide)⟩

/-- C6: get-file-data reports OutOfMemory when the host buffer allocation
fails, with no deliver-bytes handoff; with a buffer but no readable value
it reports NotFound, again without a handoff; and on every return taken
after a successful allocation the buffer has been freed. -/
theorem claim_C6 (fs : RegFs) (writeHr : Int) (path : VPath)
    (offset length : Nat) :
    (get_file_data fs false writeHr path offset length =
      .ret E_OUTOFMEMORY false none) ∧
    (fs.regops.read_value path = none →
      get_file_data fs true writeHr path offset length =
        .ret (HRESULT_FROM_WIN32 ERROR_FILE_NOT_FOUND) true none) ∧
    (∀ hr freed delivered,
      get_file_data fs true writeHr path offset length =
        .ret hr freed delivered → freed = true) := by
  refine ⟨by simp [get_file_data], ?_, ?_⟩
  · intro h
    simp [get_file_data, h]
  · intro hr freed delivered h
    cases hv : fs.regops.read_value path with
    | none =>
      simp only [get_file_data, hv, Bool.not_true, Bool.false_eq_true,
        if_false] at h
      injection h with h1 h2 h3
      exact h2.symm
    | some bytes =>
      by_cases hlen : bytes.length = length
      · simp only [get_file_data, hv, Bool.not_true, Bool.false_eq_true,
          if_false, if_pos hlen] at h
        injection h with h1 h2 h3
        exact h2.symm
      · simp only [get_file_data, hv, Bool.not_true, Bool.false_eq_true,
          if_false, if_neg hlen] at h
        cases h

/-- C6 witness: claim_C6 on the fixture store — failed allocation, then a
missing value with allocation succeeding. -/
theorem claim_C6_witness :
    get_file_data wFs false 0 wPathVal 0 4 = .ret E_OUTOFMEMORY false none ∧
    get_file_data wFs true 0 wPathNone 0 4 =
      .ret (HRESULT_FROM_WIN32 ERROR_FILE_NOT_FOUND) true none ∧
    (get_file_data wFs true 0 wPathVal 0 4 =
        .ret 0 true (some ([10, 0, 0, 0], 0, 4)) → true = true) :=
  ⟨(claim_C6 wFs 0 wPathVal 0 4).1,
   (claim_C6 wFs 0 wPathNone 0 4).2.1 (by decide),
   fun h => (claim_C6 wFs 0 wPathVal 0 4).2.2 0 true (some ([10, 0, 0, 0], 0, 4)) h⟩

/-- C4: once the host buffer of `length` bytes is allocated, the
copy_from_slice into it is defined exactly when readValue's byte count
equals `length`; a successful read of any other size makes get_file_data
panic — it neither copies a prefix nor fails gracefully — and when the
sizes agree the bytes are copied and handed to deliver-bytes. -/
theorem claim_C4 (fs : RegFs) (writeHr : Int) (path : VPath)
    (offset length : Nat) (bytes : List Nat)
    (hv : fs.regops.read_value path = some bytes) :
    (get_file_data fs true writeHr path offset length = .panicked ↔
      bytes.length ≠ length) ∧
    (bytes.length = length →
      get_file_data fs true writeHr path offset length =
        .ret writeHr true (some (bytes, offset, length))) := by
  constructor
  · by_cases hlen : bytes.length = length
    · simp [get_file_data, hv, hlen]
    · simp [get_file_data, hv, hlen]
  · intro hlen
    simp [get_file_data, hv, hlen]

/-- C4 witness: claim_C4 on the fixture's 4-byte value — a full-length
read succeeds, while requesting 2 bytes of it panics. -/
theorem claim_C4_witness :
    (get_file_data wFs true 0 wPathVal 0 4 =
      .ret 0 true (some ([10, 0, 0, 0], 0, 4))) ∧
    (get_file_data wFs true 0 wPathVal 2 2 = .panicked) := by
  have h4 := claim_C4 wFs 0 wPathVal 0 4 [10, 0, 0, 0] (by decide)
  have h2 := claim_C4 wFs 0 wPathVal 2 2 [10, 0, 0, 0] (by decide)
  exact ⟨h4.2 (by decide), h2.1.mpr (by decide)⟩

/-- C2 counterexample: a get-enum call on an Empty session whose path the
translator cannot resolve does not return the NotFound status the claim
names: it propagates the generic anyhow error "failed to get key". -/
theorem claim_C2_counterexample :
    (get_dir_enum wFs wHost [([1], DirInfo.new wPathNone)] [1] wPathNone ""
        false ⟨1, []⟩).2.2 = .error "failed to get key" ∧
    (get_dir_enum wFs wHost [([1], DirInfo.new wPathNone)] [1] wPathNone ""
        false ⟨1, []⟩).2.2 ≠
      .ok (HRESULT_FROM_WIN32 ERROR_FILE_NOT_FOUND) := by
  have hval : (get_dir_enum wFs wHost [([1], DirInfo.new wPathNone)] [1]
      wPathNone "" false ⟨1, []⟩).2.2 = .error "failed to get key" := rfl
  refine ⟨hval, ?_⟩
  rw [hval]
  simp

/-- C2 (amended): when the session cache is not yet filled and the Path
Translator fails to resolve the path, get_dir_enum returns a generic
error ("failed to get key") — not the NotFound status — leaving the
still-unfilled session in the table and the buffer untouched. -/
theorem claim_C2_amended (fs : RegFs) (host : Host) (t : SessionTable)
    (guid : List Nat) (path : VPath) (sexpr : String) (buf : Buffer)
    (d : DirInfo) (hl : lookupSession t guid = some d)
    (hf : d.filled = false)
    (he : fs.regops.enumerate_key path = none) :
    get_dir_enum fs host t guid path sexpr false buf =
      (updateSession t guid d, buf, .error "failed to get key") := by
  simp [get_dir_enum, hl, hf, populate_fail fs host path d sexpr he]

/-- C2 witness: claim_C2_amended at the concrete unresolvable path. -/
theorem claim_C2_witness :
    get_dir_enum wFs wHost [([1], DirInfo.new wPathNone)] [1] wPathNone ""
        false ⟨1, []⟩ =
      (updateSession [([1], DirInfo.new wPathNone)] [1]
        (DirInfo.new wPathNone), ⟨1, []⟩, .error "failed to get key") :=
  claim_C2_amended wFs wHost [([1], DirInfo.new wPathNone)] [1] wPathNone ""
    ⟨1, []⟩ (DirInfo.new wPathNone) (by decide) (by decide) (by decide)

/-- C1: with a filled cache of N collation-sorted entries and a host
buffer accepting exactly one entry per call, N restart-false get-enum
calls each deliver exactly the next cached entry (an entry the full
buffer rejects is not advanced past and is re-delivered on the following
call); the concatenated output is the entire sorted entry list — no
duplicates, no omissions — and call N+1 finds the cursor at
len(entries), writes nothing, and still returns S_OK. -/
theorem claim_C1 (fs : RegFs) (host : Host) (guid : List Nat) (path : VPath)
    (sexpr : String) (t : SessionTable) (d : DirInfo)
    (hl : lookupSession t guid = some d) (hf : d.filled = true)
    (hi : d.index = 0)
    (hs : d.entries.Pairwise
      (fun a b => host.compareFn a.filename b.filename ≤ 0)) :
    runGetEnums fs host guid path sexpr 1 (d.entries.length + 1) t =
      (updateSession t guid { d with index := d.entries.length },
       d.entries.map (fun e => ([e], Except.ok S_OK)) ++
         [([], Except.ok S_OK)]) ∧
    ((runGetEnums fs host guid path sexpr 1 (d.entries.length + 1)
        t).2.map Prod.fst).flatten = d.entries ∧
    ((runGetEnums fs host guid path sexpr 1 (d.entries.length + 1)
        t).2.map Prod.fst).flatten.Pairwise
      (fun a b => host.compareFn a.filename b.filename ≤ 0) ∧
    (lookupSession (runGetEnums fs host guid path sexpr 1
        (d.entries.length + 1) t).1 guid).map DirInfo.index =
      some d.entries.length := by
  have hN := runGetEnums_filled fs host guid path sexpr d.entries.length t d
    hl hf (by omega)
  rw [hi] at hN
  simp only [Nat.zero_add, List.drop_zero, List.take_length] at hN
  have hd' : lookupSession
      (updateSession t guid { d with index := d.entries.length }) guid =
      some { d with index := d.entries.length } :=
    lookupSession_updateSession_self hl
  have hlast := getEnum_filled_done fs host
    (updateSession t guid { d with index := d.entries.length }) guid path
    sexpr { d with index := d.entries.length } ⟨1, []⟩ hd' hf (by simp)
  have hmain : runGetEnums fs host guid path sexpr 1
      (d.entries.length + 1) t =
      (updateSession t guid { d with index := d.entries.length },
       d.entries.map (fun e => ([e], Except.ok S_OK)) ++
         [([], Except.ok S_OK)]) := by
    rw [runGetEnums_split fs host guid path sexpr 1 d.entries.length 1 t]
    rw [hN]
    simp only [runGetEnums, hlast]
    rw [updateSession_updateSession]
  have hflat : ((runGetEnums fs host guid path sexpr 1
      (d.entries.length + 1) t).2.map Prod.fst).flatten = d.entries := by
    rw [hmain]
    exact writes_flatten d.entries
  refine ⟨hmain, hflat, ?_, ?_⟩
  · rw [hflat]
    exact hs
  · rw [hmain]
    show (lookupSession (updateSession t guid
        { d with index := d.entries.length }) guid).map DirInfo.index =
      some d.entries.length
    rw [lookupSession_updateSession_self hl]
    rfl

/-- C1 witness: claim_C1 on a concrete two-entry filled session with the
constant collation (under which the cache is trivially sorted): three
calls through a one-entry buffer. -/
theorem claim_C1_witness :
    runGetEnums wFs wHost [2] wPathRoot "" 1 (cDir.entries.length + 1)
        [([2], cDir)] =
      (updateSession [([2], cDir)] [2] { cDir with index := cDir.entries.length },
       cDir.entries.map (fun e => ([e], Except.ok S_OK)) ++
         [([], Except.ok S_OK)]) ∧
    ((runGetEnums wFs wHost [2] wPathRoot "" 1 (cDir.entries.length + 1)
        [([2], cDir)]).2.map Prod.fst).flatten = cDir.entries ∧
    ((runGetEnums wFs wHost [2] wPathRoot "" 1 (cDir.entries.length + 1)
        [([2], cDir)]).2.map Prod.fst).flatten.Pairwise
      (fun a b => wHost.compareFn a.filename b.filename ≤ 0) ∧
    (lookupSession (runGetEnums wFs wHost [2] wPathRoot "" 1
        (cDir.entries.length + 1) [([2], cDir)]).1 [2]).map DirInfo.index =
      some cDir.entries.length :=
  claim_C1 wFs wHost [2] wPathRoot "" [([2], cDir)] cDir (by decide)
    (by decide) (by decide) (by decide)

end RegFsModel
